import Mathlib

/-! TelnetServer: connection lifecycle, line framing and shutdown.

A shallow embedding of `TelnetClientHandler.h` and `TelnetServer.h`.

* A `std::string` is a list of `char` values (`List Int`), so that the
  comparisons of the source read the same whether `char` is signed or not.
* The operating system and the socket utility layer are an explicit `World`:
  the descriptors the process holds open and the trace of calls made so far.
  What the operating system answers is an input of each operation.
* Threads are sequentialised: one iteration of a loop body is one function,
  and a loop is run over the list of answers its iterations receive.
  Console logging is left out, except the command hook of the read loop.
-/

/-! ## Strings -/

/-- A `std::string`: the sequence of its `char` values. -/
abbrev CString := List Int

/-- The `char` values of a string literal. -/
def cstr (s : String) : CString := s.toList.map fun c => (c.toNat : Int)

/-- The two-character literal `"\r\n"`. -/
def CRLF : CString := [13, 10]

/-- `std::string::find(pat)` from position 0: the least index at which `pat`
occurs, `none` standing for `npos`. -/
def strFind (s pat : CString) : Option Nat :=
  match s with
  | [] => if pat = [] then some 0 else none
  | c :: cs =>
    if pat <+: c :: cs then some 0
    else (strFind cs pat).map (· + 1)

/-- `std::string::substr(0, n)`. -/
def substr0 (s : CString) (n : Nat) : CString := s.take n

/-! ## The world outside the process -/

/-- One call that leaves the process, with the arguments that matter. -/
inductive Event where
  | socket (ret : Int)
  | setsockopt (fd : Int)
  | bind (fd : Int) (port : Int)
  | listen (fd : Int) (backlog : Int)
  | setNonBlocking (fd : Int)
  | accept (fd : Int) (ret : Int)
  | close (fd : Int)
  | send (fd : Int) (data : CString)
  | receive (fd : Int) (timeoutMs : Int)
  | sleep (ms : Nat)
  | spawnAccept
  | joinAccept
  | spawnHandler (fd : Int)
  | command (fd : Int) (line : CString)
  deriving DecidableEq, Repr

/-- The descriptors the process holds open and the calls it has made. -/
structure World where
  openFds : List Int
  trace : List Event
  deriving DecidableEq, Repr

/-- Record a call in the trace. -/
def World.emit (w : World) (e : Event) : World :=
  { w with trace := w.trace ++ [e] }

/-- The call `socket(AF_INET, SOCK_STREAM, 0)` answering `ret`: a non-negative
answer is a new open descriptor. -/
def World.sysSocket (w : World) (ret : Int) : World :=
  { openFds := if 0 ≤ ret then ret :: w.openFds else w.openFds,
    trace := w.trace ++ [Event.socket ret] }

/-- The call `accept(fd, ..)` answering `ret`: a non-negative answer is a new
open descriptor. -/
def World.sysAccept (w : World) (fd ret : Int) : World :=
  { openFds := if 0 ≤ ret then ret :: w.openFds else w.openFds,
    trace := w.trace ++ [Event.accept fd ret] }

/-- The call `close(fd)`: the descriptor is no longer held open. -/
def World.sysClose (w : World) (fd : Int) : World :=
  { openFds := w.openFds.erase fd,
    trace := w.trace ++ [Event.close fd] }

/-- The answers of the peer-facing writes: whether the write of `data` to
`fd`, after the calls made so far, succeeds. -/
abbrev SendOracle := List Event → Int → CString → Bool

/-- Modelled from the spec: `SocketUtils::sendData` (`SocketUtils.h` is not
among the sources) writes the text to the connection and returns success or
failure; the write is recorded in the trace and its result is given by the oracle. -/
def sendData (net : SendOracle) (fd : Int) (data : CString) (w : World) :
    Bool × World :=
  (net w.trace fd data, w.emit (Event.send fd data))

/-- The writes of a trace, in order. -/
def writes : List Event → List (Int × CString)
  | [] => []
  | Event.send fd data :: es => (fd, data) :: writes es
  | _ :: es => writes es

/-- The descriptors a trace closes, in order. -/
def closes : List Event → List Int
  | [] => []
  | Event.close fd :: es => fd :: closes es
  | _ :: es => closes es

/-- The commands a trace hands to the command hook, in order. -/
def commands : List Event → List (Int × CString)
  | [] => []
  | Event.command fd line :: es => (fd, line) :: commands es
  | _ :: es => commands es

/-! ## `TelnetClientHandler` -/

/-- The fields of `TelnetClientHandler` (the thread is detached on
construction and is not kept). -/
structure TelnetClientHandler where
  clientSocket : Int
  running : Bool
  deriving DecidableEq, Repr

/-- The constructor: stores the socket, sets `running`, starts and detaches
the handler thread. -/
def TelnetClientHandler.new (socket : Int) (w : World) :
    TelnetClientHandler × World :=
  ({ clientSocket := socket, running := true }, w.emit (Event.spawnHandler socket))

/-- The destructor `~TelnetClientHandler`: clears `running` and nothing
else. -/
def TelnetClientHandler.destructor (h : TelnetClientHandler) (w : World) :
    TelnetClientHandler × World :=
  ({ h with running := false }, w)

/-- The method `sendMessage`: `sendData(clientSocket, message + "\r\n")`. -/
def TelnetClientHandler.sendMessage (net : SendOracle) (h : TelnetClientHandler)
    (message : CString) (w : World) : Bool × World :=
  sendData net h.clientSocket (message ++ CRLF) w

/-- One round of the filtering loop of `handleClient`: what `result` becomes
on the character `c`. -/
def stripStep (result : CString) (c : Int) : CString :=
  if 32 ≤ c ∧ c < 127 then result ++ [c]
  else if c = 13 ∨ c = 10 then result ++ [c]
  else result

/-- The filtering loop of `handleClient` over `rawData`, from an empty
`result`. -/
def stripControl (rawData : CString) : CString :=
  rawData.foldl stripStep []

/-- The line codec of `handleClient`: filter, then cut at the first
`"\r\n"` when there is one. -/
def decodeLine (rawData : CString) : CString :=
  let result := stripControl rawData
  match strFind result CRLF with
  | some pos => substr0 result pos
  | none => result

/-- One iteration of the body of `while (running)` in `handleClient`, on the
chunk that `receiveData` returned. -/
def TelnetClientHandler.handleClientIter (h : TelnetClientHandler)
    (rawData : CString) (w : World) : TelnetClientHandler × World :=
  let w := w.emit (Event.receive h.clientSocket 10000)
  let result := decodeLine rawData
  if result = [] then
    (h, w.emit (Event.sleep 100))
  else
    (h, w.emit (Event.command h.clientSocket result))

/-- The loop `while (running)` of `handleClient`, over the chunks its
iterations receive. -/
def TelnetClientHandler.handleClient (h : TelnetClientHandler) :
    List CString → World → TelnetClientHandler × World
  | [], w => (h, w)
  | rawData :: rest, w =>
    if h.running then
      let r := h.handleClientIter rawData w
      TelnetClientHandler.handleClient r.1 rest r.2
    else (h, w)

/-! ## `TelnetServer` -/

/-- The fields of `TelnetServer`; `acceptThread` is whether the thread object
is joinable. -/
structure TelnetServer where
  serverSocket : Int
  running : Bool
  acceptThread : Bool
  clients : List TelnetClientHandler
  deriving DecidableEq, Repr

/-- The constructor `TelnetServer()`. -/
def TelnetServer.new : TelnetServer :=
  { serverSocket := -1, running := false, acceptThread := false, clients := [] }

/-- What the operating system answers to the setup calls of `start`. -/
structure SetupOutcome where
  socketRet : Int
  setsockoptRet : Int
  bindRet : Int
  listenRet : Int
  nonBlockingOk : Bool
  deriving DecidableEq, Repr

/-- The method `start(port)`. The result is `none` when the process is
terminated: assigning to `acceptThread` while it is joinable calls
`std::terminate`. -/
def TelnetServer.start (o : SetupOutcome) (port : Int) (s : TelnetServer)
    (w : World) : Option (Bool × TelnetServer × World) :=
  let s := { s with serverSocket := o.socketRet }
  let w := w.sysSocket o.socketRet
  if s.serverSocket < 0 then some (false, s, w)
  else
    let w := w.emit (Event.setsockopt s.serverSocket)
    if o.setsockoptRet < 0 then some (false, s, w.sysClose s.serverSocket)
    else
      let w := w.emit (Event.bind s.serverSocket (port % 65536))
      if o.bindRet < 0 then some (false, s, w.sysClose s.serverSocket)
      else
        let w := w.emit (Event.listen s.serverSocket 10)
        if o.listenRet < 0 then some (false, s, w.sysClose s.serverSocket)
        else
          let w := w.emit (Event.setNonBlocking s.serverSocket)
          if !o.nonBlockingOk then some (false, s, w.sysClose s.serverSocket)
          else
            let s := { s with running := true }
            if s.acceptThread then none
            else
              some (true, { s with acceptThread := true }, w.emit Event.spawnAccept)

/-- The statement `clients.clear()`: every handler is destroyed, in order. -/
def clearClients (clients : List TelnetClientHandler) (w : World) :
    List TelnetClientHandler × World :=
  ([], clients.foldl (fun w h => (h.destructor w).2) w)

/-- The method `stop()`. -/
def TelnetServer.stop (s : TelnetServer) (w : World) : TelnetServer × World :=
  let s := { s with running := false }
  let sw : TelnetServer × World :=
    if s.acceptThread then ({ s with acceptThread := false }, w.emit Event.joinAccept)
    else (s, w)
  let cw := clearClients sw.1.clients sw.2
  let s : TelnetServer := { sw.1 with clients := cw.1 }
  let w : World := cw.2
  if 0 ≤ s.serverSocket then
    ({ s with serverSocket := -1 }, w.sysClose s.serverSocket)
  else (s, w)

/-- The loop of `broadcastMessage` over the clients still to be served. -/
def broadcastLoop (net : SendOracle) (msg : CString) :
    List TelnetClientHandler → World → World
  | [], w => w
  | client :: rest, w => broadcastLoop net msg rest (client.sendMessage net msg w).2

/-- The method `broadcastMessage(msg)`. -/
def TelnetServer.broadcastMessage (net : SendOracle) (s : TelnetServer)
    (msg : CString) (w : World) : World :=
  broadcastLoop net msg s.clients w

/-- What one iteration of the accept loop receives: the answer of `accept`,
whether `errno` is `EAGAIN` or `EWOULDBLOCK` when it failed, and the answer
of `setNonBlocking` on the new socket. -/
structure AcceptOutcome where
  clientSocket : Int
  wouldBlock : Bool
  nonBlockingOk : Bool
  deriving DecidableEq, Repr

/-- One iteration of the body of `while (running)` in `acceptConnections`. -/
def TelnetServer.acceptIter (net : SendOracle) (a : AcceptOutcome)
    (s : TelnetServer) (w : World) : TelnetServer × World :=
  let w := w.sysAccept s.serverSocket a.clientSocket
  if a.clientSocket < 0 then
    if a.wouldBlock then (s, w.emit (Event.sleep 100))
    else (s, w)
  else
    let w := w.emit (Event.setNonBlocking a.clientSocket)
    if !a.nonBlockingOk then (s, w.sysClose a.clientSocket)
    else
      let hw := TelnetClientHandler.new a.clientSocket w
      let s := { s with clients := s.clients ++ [hw.1] }
      let w := hw.2
      let w :=
        match s.clients.getLast? with
        | some back => (back.sendMessage net (cstr "Welcome to TelnetServer.") w).2
        | none => w
      (s, s.broadcastMessage net (cstr "New client joined.") w)

/-- The loop `while (running)` of `acceptConnections`, over the answers its
iterations receive. -/
def TelnetServer.acceptConnections (net : SendOracle) :
    List AcceptOutcome → TelnetServer → World → TelnetServer × World
  | [], s, w => (s, w)
  | a :: rest, s, w =>
    if s.running then
      let r := s.acceptIter net a w
      TelnetServer.acceptConnections net rest r.1 r.2
    else (s, w)

/-! ## Vocabulary of the specification -/

/-- The bytes the specification calls retained: printable ASCII (32 to 126),
carriage return and line feed. -/
def isRetained (c : Int) : Bool :=
  decide ((32 ≤ c ∧ c ≤ 126) ∨ c = 13 ∨ c = 10)

/-- The filtered form of a chunk in the words of the specification: the
retained bytes are kept, in order, and all others are dropped. -/
def filteredForm (rawData : CString) : CString := rawData.filter isRetained

/-! ## The line codec -/

theorem stripStep_eq (result : CString) (c : Int) :
    stripStep result c = if isRetained c = true then result ++ [c] else result := by
  unfold stripStep isRetained
  by_cases h1 : 32 ≤ c ∧ c < 127
  · have h2 : (32 ≤ c ∧ c ≤ 126) ∨ c = 13 ∨ c = 10 := Or.inl ⟨h1.1, by omega⟩
    rw [if_pos h1, if_pos (decide_eq_true h2)]
  · by_cases h3 : c = 13 ∨ c = 10
    · rw [if_neg h1, if_pos h3, if_pos (decide_eq_true (Or.inr h3))]
    · have h2 : ¬ ((32 ≤ c ∧ c ≤ 126) ∨ c = 13 ∨ c = 10) := by omega
      rw [if_neg h1, if_neg h3, if_neg (by rw [decide_eq_false h2]; exact Bool.false_ne_true)]

theorem foldl_stripStep (rawData acc : CString) :
    rawData.foldl stripStep acc = acc ++ filteredForm rawData := by
  induction rawData generalizing acc with
  | nil => simp [filteredForm]
  | cons c cs ih =>
    rw [List.foldl_cons, ih, stripStep_eq]
    unfold filteredForm
    by_cases h : isRetained c = true
    · simp [h, List.filter_cons]
    · simp [h, List.filter_cons]

theorem stripControl_eq_filteredForm (rawData : CString) :
    stripControl rawData = filteredForm rawData := by
  simp [stripControl, foldl_stripStep]

theorem strFind_eq_none_iff (s pat : CString) :
    strFind s pat = none ↔ ¬ pat <:+: s := by
  induction s with
  | nil =>
    unfold strFind
    by_cases h : pat = [] <;> simp [h]
  | cons c cs ih =>
    unfold strFind
    by_cases h : pat <+: c :: cs
    · simp [h, List.infix_cons_iff]
    · simp [h, List.infix_cons_iff, ih]

theorem crlf_not_straddling (c : Int) (pre post : CString)
    (hpre : ¬ CRLF <:+: c :: pre) : ¬ CRLF <+: c :: (pre ++ CRLF ++ post) := by
  intro h
  cases pre with
  | nil =>
    simp [CRLF, List.cons_prefix_cons] at h
  | cons d ds =>
    apply hpre
    simp only [CRLF, List.cons_append, List.cons_prefix_cons] at h
    obtain ⟨h1, h2, -⟩ := h
    subst h1 h2
    exact (List.prefix_append [13, 10] ds).isInfix

theorem strFind_first_crlf (pre post : CString) (hpre : ¬ CRLF <:+: pre) :
    strFind (pre ++ CRLF ++ post) CRLF = some pre.length := by
  induction pre with
  | nil => simp [strFind, CRLF]
  | cons c cs ih =>
    have hcs : ¬ CRLF <:+: cs := fun h => hpre (List.infix_cons h)
    have hno := crlf_not_straddling c cs post hpre
    simp only [List.cons_append] at hno ⊢
    rw [strFind, if_neg hno, ih hcs]
    simp

theorem crlf_split_first (s : CString) (h : CRLF <:+: s) :
    ∃ pre post, s = pre ++ CRLF ++ post ∧ ¬ CRLF <:+: pre := by
  induction s with
  | nil => simp [CRLF] at h
  | cons c cs ih =>
    by_cases hp : CRLF <+: c :: cs
    · obtain ⟨post, hpost⟩ := hp
      exact ⟨[], post, by simp [← hpost], by simp [CRLF]⟩
    · rcases List.infix_cons_iff.1 h with h1 | h1
      · exact absurd h1 hp
      · obtain ⟨pre, post, hs, hpre⟩ := ih h1
        refine ⟨c :: pre, post, by simp [hs], ?_⟩
        intro hin
        rcases List.infix_cons_iff.1 hin with h2 | h2
        · apply hp
          rw [hs]
          exact h2.trans ⟨CRLF ++ post, by simp⟩
        · exact hpre h2

theorem decodeLine_of_split (rawData pre post : CString)
    (hs : stripControl rawData = pre ++ CRLF ++ post) (hpre : ¬ CRLF <:+: pre) :
    decodeLine rawData = pre := by
  unfold decodeLine
  simp only [hs, strFind_first_crlf pre post hpre, substr0]
  simp

theorem decodeLine_of_no_crlf (rawData : CString)
    (h : ¬ CRLF <:+: stripControl rawData) :
    decodeLine rawData = stripControl rawData := by
  unfold decodeLine
  simp only [(strFind_eq_none_iff _ _).2 h]

theorem crlf_split_unique (pre post pre2 post2 : CString)
    (hs : pre ++ CRLF ++ post = pre2 ++ CRLF ++ post2)
    (hpre : ¬ CRLF <:+: pre) (hpre2 : ¬ CRLF <:+: pre2) : pre = pre2 := by
  have h1 := strFind_first_crlf pre post hpre
  have h2 := strFind_first_crlf pre2 post2 hpre2
  rw [hs, h2] at h1
  have hlen : pre2.length = pre.length := by simpa using h1
  have := congrArg (List.take pre.length) hs
  simp only [List.append_assoc] at this
  rw [List.take_left, ← hlen, List.take_left] at this
  exact this

/-- C1. Line framing: when the filtered form of a received chunk contains
CR LF, the codec returns exactly the part of the filtered chunk before the
first CR LF, whatever follows it; the filtered form keeps the bytes 32 to 126,
CR and LF and drops all others. -/
theorem decodeLine_line_framing (rawData : CString)
    (h : CRLF <:+: filteredForm rawData) :
    stripControl rawData = filteredForm rawData ∧
    ∃ pre post, filteredForm rawData = pre ++ CRLF ++ post ∧ ¬ CRLF <:+: pre ∧
      decodeLine rawData = pre ∧
      ∀ pre2 post2, filteredForm rawData = pre2 ++ CRLF ++ post2 →
        ¬ CRLF <:+: pre2 → pre2 = pre := by
  refine ⟨stripControl_eq_filteredForm rawData, ?_⟩
  obtain ⟨pre, post, hs, hpre⟩ := crlf_split_first _ h
  refine ⟨pre, post, hs, hpre, ?_, ?_⟩
  · exact decodeLine_of_split rawData pre post
      (by rw [stripControl_eq_filteredForm, hs]) hpre
  · intro pre2 post2 hs2 hpre2
    exact (crlf_split_unique pre post pre2 post2 (by rw [← hs, hs2]) hpre hpre2).symm

/-- C1, at the chunk of the specification: `"PLAY 3 4\r\nextra"` decodes to
`"PLAY 3 4"`. -/
theorem decodeLine_line_framing_witness :
    CRLF <:+: filteredForm (cstr "PLAY 3 4\r\nextra") ∧
    decodeLine (cstr "PLAY 3 4\r\nextra") = cstr "PLAY 3 4" ∧
    (stripControl (cstr "PLAY 3 4\r\nextra") = filteredForm (cstr "PLAY 3 4\r\nextra") ∧
    ∃ pre post, filteredForm (cstr "PLAY 3 4\r\nextra") = pre ++ CRLF ++ post ∧
      ¬ CRLF <:+: pre ∧ decodeLine (cstr "PLAY 3 4\r\nextra") = pre ∧
      ∀ pre2 post2, filteredForm (cstr "PLAY 3 4\r\nextra") = pre2 ++ CRLF ++ post2 →
        ¬ CRLF <:+: pre2 → pre2 = pre) :=
  ⟨by decide, by decide, decodeLine_line_framing (cstr "PLAY 3 4\r\nextra") (by decide)⟩

theorem decodeLine_prefix_of_filtered (rawData : CString) :
    decodeLine rawData <+: filteredForm rawData := by
  rw [← stripControl_eq_filteredForm]
  unfold decodeLine
  simp only []
  split
  · exact List.take_prefix _ _
  · exact List.prefix_refl _

/-- C2. Every byte of the decoded output of the line codec is printable ASCII
(32 to 126), CR or LF; DEL and the bytes from 128 on (negative when `char` is
signed) never occur in it. -/
theorem decodeLine_only_retained (rawData : CString) (c : Int)
    (h : c ∈ decodeLine rawData) :
    ((32 ≤ c ∧ c ≤ 126) ∨ c = 13 ∨ c = 10) ∧ c ≠ 127 ∧ c < 128 ∧ 0 ≤ c := by
  have hmem : c ∈ filteredForm rawData := (decodeLine_prefix_of_filtered rawData).subset h
  have hret : isRetained c = true := (List.mem_filter.1 hmem).2
  have hc : (32 ≤ c ∧ c ≤ 126) ∨ c = 13 ∨ c = 10 := of_decide_eq_true hret
  refine ⟨hc, ?_, ?_, ?_⟩ <;> omega

/-- C2, at a chunk with control bytes, DEL and bytes from 128 on. -/
theorem decodeLine_only_retained_witness :
    (72 : Int) ∈ decodeLine [255, -1, 127, 7, 72, 200, 105] ∧
    decodeLine [255, -1, 127, 7, 72, 200, 105] = [72, 105] ∧
    (((32 ≤ (72 : Int) ∧ (72 : Int) ≤ 126) ∨ (72 : Int) = 13 ∨ (72 : Int) = 10) ∧
      (72 : Int) ≠ 127 ∧ (72 : Int) < 128 ∧ 0 ≤ (72 : Int)) :=
  ⟨by decide, by decide,
    decodeLine_only_retained [255, -1, 127, 7, 72, 200, 105] 72 (by decide)⟩

theorem commands_append (t u : List Event) :
    commands (t ++ u) = commands t ++ commands u := by
  induction t with
  | nil => rfl
  | cons e es ih => cases e <;> simp [commands, ih]

theorem writes_append (t u : List Event) :
    writes (t ++ u) = writes t ++ writes u := by
  induction t with
  | nil => rfl
  | cons e es ih => cases e <;> simp [writes, ih]

theorem closes_append (t u : List Event) :
    closes (t ++ u) = closes t ++ closes u := by
  induction t with
  | nil => rfl
  | cons e es ih => cases e <;> simp [closes, ih]

/-- C3, as stated, fails: the unterminated chunks `"hello"` and `"hello\n"`
hold no CR LF after filtering, yet the codec returns them whole and the read
loop hands `"hello"` to the command hook. -/
theorem unterminated_chunk_is_forwarded :
    ¬ CRLF <:+: filteredForm (cstr "hello") ∧
    decodeLine (cstr "hello") = cstr "hello" ∧
    decodeLine (cstr "hello") ≠ [] ∧
    ¬ CRLF <:+: filteredForm (cstr "hello\n") ∧
    decodeLine (cstr "hello\n") = cstr "hello\n" ∧
    commands ((TelnetClientHandler.handleClientIter
      { clientSocket := 4, running := true } (cstr "hello")
      { openFds := [4], trace := [] }).2.trace) = [(4, cstr "hello")] := by
  decide

/-- C3, amended. A chunk with no CR LF after filtering decodes to its whole
filtered form; the result is empty exactly when the chunk has no retained
byte, and only then does the read loop forward no command: otherwise it
forwards the filtered chunk. -/
theorem decodeLine_unterminated (rawData : CString)
    (h : ¬ CRLF <:+: filteredForm rawData) :
    decodeLine rawData = filteredForm rawData ∧
    (decodeLine rawData = [] ↔ ∀ c ∈ rawData, isRetained c = false) ∧
    ∀ (hd : TelnetClientHandler) (w : World),
      commands (hd.handleClientIter rawData w).2.trace =
        commands w.trace ++
          (if filteredForm rawData = [] then []
           else [(hd.clientSocket, filteredForm rawData)]) := by
  have hdec : decodeLine rawData = filteredForm rawData := by
    rw [← stripControl_eq_filteredForm] at h ⊢
    exact decodeLine_of_no_crlf rawData h
  refine ⟨hdec, ?_, ?_⟩
  · rw [hdec]
    unfold filteredForm
    rw [List.filter_eq_nil_iff]
    simp
  · intro hd w
    unfold TelnetClientHandler.handleClientIter
    simp only [hdec]
    by_cases he : filteredForm rawData = []
    · simp [he, World.emit, commands_append, commands]
    · simp [he, World.emit, commands_append, commands]

/-- C3 amended, at the unterminated chunk `"hello"`. -/
theorem decodeLine_unterminated_witness :
    ¬ CRLF <:+: filteredForm (cstr "hello") ∧
    (decodeLine (cstr "hello") = filteredForm (cstr "hello") ∧
    (decodeLine (cstr "hello") = [] ↔ ∀ c ∈ cstr "hello", isRetained c = false) ∧
    ∀ (hd : TelnetClientHandler) (w : World),
      commands (hd.handleClientIter (cstr "hello") w).2.trace =
        commands w.trace ++
          (if filteredForm (cstr "hello") = [] then []
           else [(hd.clientSocket, filteredForm (cstr "hello"))])) :=
  ⟨by decide, decodeLine_unterminated (cstr "hello") (by decide)⟩

/-! ## Broadcast and the accept loop -/

theorem writes_map_send (cs : List TelnetClientHandler) (data : CString) :
    writes (cs.map fun h => Event.send h.clientSocket data) =
      cs.map fun h => (h.clientSocket, data) := by
  induction cs with
  | nil => rfl
  | cons c cs ih => simp [writes, ih]

theorem broadcastLoop_eq (net : SendOracle) (msg : CString)
    (cs : List TelnetClientHandler) (w : World) :
    broadcastLoop net msg cs w =
      { openFds := w.openFds,
        trace := w.trace ++ cs.map fun h => Event.send h.clientSocket (msg ++ CRLF) } := by
  induction cs generalizing w with
  | nil => simp [broadcastLoop]
  | cons c cs ih =>
    rw [broadcastLoop, ih]
    simp [TelnetClientHandler.sendMessage, sendData, World.emit]

/-- C4. Broadcast delivery: `broadcastMessage(L)` performs exactly one write
per registered handle, in registry order, each of `L` followed by CR LF, and
nothing else; the writes are the same whatever the results of the individual
writes are. -/
theorem broadcastMessage_delivery (net : SendOracle) (s : TelnetServer)
    (L : CString) (w : World) :
    (s.broadcastMessage net L w).trace =
      w.trace ++ s.clients.map (fun h => Event.send h.clientSocket (L ++ CRLF)) ∧
    writes (s.broadcastMessage net L w).trace =
      writes w.trace ++ s.clients.map (fun h => (h.clientSocket, L ++ CRLF)) ∧
    (s.clients.map (fun h => (h.clientSocket, L ++ CRLF))).length = s.clients.length ∧
    (s.broadcastMessage net L w).openFds = w.openFds ∧
    ∀ net2 : SendOracle, s.broadcastMessage net2 L w = s.broadcastMessage net L w := by
  unfold TelnetServer.broadcastMessage
  refine ⟨?_, ?_, ?_, ?_, ?_⟩
  · rw [broadcastLoop_eq]
  · rw [broadcastLoop_eq, writes_append, writes_map_send]
  · exact List.length_map _ _
  · rw [broadcastLoop_eq]
  · intro net2
    rw [broadcastLoop_eq, broadcastLoop_eq]

/-- C5. Accept step: when `accept` returns a socket and `setNonBlocking`
succeeds on it, the registry is the old one with one new running handle for
that socket appended; the calls made are `accept`, `setNonBlocking`, the start
of the handler thread, the greeting to the new handle, and then the join
notice once to every handle of the updated registry, in registry order. -/
theorem acceptIter_accepted (net : SendOracle) (a : AcceptOutcome)
    (s : TelnetServer) (w : World)
    (hacc : 0 ≤ a.clientSocket) (hnb : a.nonBlockingOk = true) :
    (s.acceptIter net a w).1 =
      { s with clients := s.clients ++ [TelnetClientHandler.mk a.clientSocket true] } ∧
    (s.acceptIter net a w).2.trace =
      w.trace ++
        [Event.accept s.serverSocket a.clientSocket,
         Event.setNonBlocking a.clientSocket,
         Event.spawnHandler a.clientSocket,
         Event.send a.clientSocket (cstr "Welcome to TelnetServer." ++ CRLF)] ++
        (s.clients ++ [TelnetClientHandler.mk a.clientSocket true]).map
          (fun h => Event.send h.clientSocket (cstr "New client joined." ++ CRLF)) ∧
    writes (s.acceptIter net a w).2.trace =
      writes w.trace ++
        (a.clientSocket, cstr "Welcome to TelnetServer." ++ CRLF) ::
        (s.clients ++ [TelnetClientHandler.mk a.clientSocket true]).map
          (fun h => (h.clientSocket, cstr "New client joined." ++ CRLF)) ∧
    (s.acceptIter net a w).2.openFds = a.clientSocket :: w.openFds := by
  have hneg : ¬ a.clientSocket < 0 := by omega
  have hstate : s.acceptIter net a w =
      ({ s with clients := s.clients ++ [TelnetClientHandler.mk a.clientSocket true] },
       { openFds := a.clientSocket :: w.openFds,
         trace := w.trace ++
          [Event.accept s.serverSocket a.clientSocket,
           Event.setNonBlocking a.clientSocket,
           Event.spawnHandler a.clientSocket,
           Event.send a.clientSocket (cstr "Welcome to TelnetServer." ++ CRLF)] ++
          (s.clients ++ [TelnetClientHandler.mk a.clientSocket true]).map
            (fun h => Event.send h.clientSocket (cstr "New client joined." ++ CRLF)) }) := by
    unfold TelnetServer.acceptIter
    simp only [hneg, hnb, if_false, Bool.not_true, Bool.false_eq_true,
      TelnetClientHandler.new, List.getLast?_append, List.getLast?_singleton,
      TelnetServer.broadcastMessage, broadcastLoop_eq,
      TelnetClientHandler.sendMessage, sendData, World.emit, World.sysAccept, hacc, if_true]
    simp
  rw [hstate]
  refine ⟨rfl, rfl, ?_, rfl⟩
  simp only [writes_append, writes_map_send]
  simp [writes]

/-- C5, at a registry holding one client (socket 4) when socket 5 is accepted,
with every write failing. -/
theorem acceptIter_accepted_witness :
    writes (TelnetServer.acceptIter (fun _ _ _ => false) ⟨5, false, true⟩
        ⟨3, true, true, [⟨4, true⟩]⟩ ⟨[4, 3], []⟩).2.trace =
      [(5, cstr "Welcome to TelnetServer." ++ CRLF),
       (4, cstr "New client joined." ++ CRLF),
       (5, cstr "New client joined." ++ CRLF)] ∧
    (TelnetServer.acceptIter (fun _ _ _ => false) ⟨5, false, true⟩
        ⟨3, true, true, [⟨4, true⟩]⟩ ⟨[4, 3], []⟩).1 =
      ⟨3, true, true, [⟨4, true⟩, ⟨5, true⟩]⟩ :=
  ⟨(acceptIter_accepted (fun _ _ _ => false) ⟨5, false, true⟩
      ⟨3, true, true, [⟨4, true⟩]⟩ ⟨[4, 3], []⟩ (by decide) rfl).2.2.1,
   (acceptIter_accepted (fun _ _ _ => false) ⟨5, false, true⟩
      ⟨3, true, true, [⟨4, true⟩]⟩ ⟨[4, 3], []⟩ (by decide) rfl).1⟩

/-! ## Start and stop -/

theorem clearClients_eq (cs : List TelnetClientHandler) (w : World) :
    clearClients cs w = ([], w) := by
  unfold clearClients
  induction cs with
  | nil => rfl
  | cons c cs ih =>
    simp only [List.foldl_cons, TelnetClientHandler.destructor] at ih ⊢
    exact ih

theorem stop_eq (s : TelnetServer) (w : World) :
    s.stop w =
      ({ serverSocket := if 0 ≤ s.serverSocket then -1 else s.serverSocket,
         running := false, acceptThread := false, clients := [] },
       { openFds := if 0 ≤ s.serverSocket then w.openFds.erase s.serverSocket else w.openFds,
         trace := w.trace ++ (if s.acceptThread then [Event.joinAccept] else []) ++
           (if 0 ≤ s.serverSocket then [Event.close s.serverSocket] else []) }) := by
  unfold TelnetServer.stop
  simp only [clearClients_eq]
  cases hj : s.acceptThread <;> by_cases hfd : 0 ≤ s.serverSocket <;>
    simp [hfd, World.emit, World.sysClose]

/-- C6. Shutdown post-state: from every listener state (stored descriptor
-1 or a descriptor), after `stop()` the running flag is false, the registry is
empty, the worker is not joinable, the stored descriptor is -1 and the
descriptor that was stored has been closed, once; a second `stop()` changes
nothing and makes no call. -/
theorem stop_post_state (s : TelnetServer) (w : World)
    (hfd : -1 ≤ s.serverSocket) :
    (s.stop w).1.running = false ∧
    (s.stop w).1.clients = [] ∧
    (s.stop w).1.serverSocket = -1 ∧
    (s.stop w).1.acceptThread = false ∧
    closes (s.stop w).2.trace =
      closes w.trace ++ (if 0 ≤ s.serverSocket then [s.serverSocket] else []) ∧
    (s.stop w).1.stop (s.stop w).2 = s.stop w := by
  have hpost : (s.stop w).1 = TelnetServer.new := by
    rw [stop_eq]
    by_cases h : 0 ≤ s.serverSocket
    · simp [h, TelnetServer.new]
    · have : s.serverSocket = -1 := by omega
      simp [h, this, TelnetServer.new]
  refine ⟨by rw [hpost]; rfl, by rw [hpost]; rfl, by rw [hpost]; rfl,
    by rw [hpost]; rfl, ?_, ?_⟩
  · rw [stop_eq]
    by_cases h : 0 ≤ s.serverSocket <;> cases hj : s.acceptThread <;>
      simp [h, closes_append, closes]
  · have hnew : ∀ w2 : World, TelnetServer.new.stop w2 = (TelnetServer.new, w2) := by
      intro w2
      rw [stop_eq]
      simp [TelnetServer.new]
    rw [hpost, hnew]
    exact Prod.ext hpost.symm rfl

/-- C6, at a running server with two clients. -/
theorem stop_post_state_witness :
    (-1 : Int) ≤ (TelnetServer.mk 3 true true [⟨4, true⟩, ⟨5, true⟩]).serverSocket ∧
    (TelnetServer.stop ⟨3, true, true, [⟨4, true⟩, ⟨5, true⟩]⟩ ⟨[5, 4, 3], []⟩).1 =
      TelnetServer.new ∧
    closes (TelnetServer.stop ⟨3, true, true, [⟨4, true⟩, ⟨5, true⟩]⟩ ⟨[5, 4, 3], []⟩).2.trace
      = [3] ∧
    (TelnetServer.stop ⟨3, true, true, [⟨4, true⟩, ⟨5, true⟩]⟩ ⟨[5, 4, 3], []⟩).1.stop
        (TelnetServer.stop ⟨3, true, true, [⟨4, true⟩, ⟨5, true⟩]⟩ ⟨[5, 4, 3], []⟩).2 =
      TelnetServer.stop ⟨3, true, true, [⟨4, true⟩, ⟨5, true⟩]⟩ ⟨[5, 4, 3], []⟩ :=
  ⟨by decide, by decide,
   (stop_post_state ⟨3, true, true, [⟨4, true⟩, ⟨5, true⟩]⟩ ⟨[5, 4, 3], []⟩
      (by decide)).2.2.2.2.1,
   (stop_post_state ⟨3, true, true, [⟨4, true⟩, ⟨5, true⟩]⟩ ⟨[5, 4, 3], []⟩
      (by decide)).2.2.2.2.2⟩

theorem start_all_ok (o : SetupOutcome) (port : Int) (s : TelnetServer) (w : World)
    (h1 : 0 ≤ o.socketRet) (h2 : 0 ≤ o.setsockoptRet) (h3 : 0 ≤ o.bindRet)
    (h4 : 0 ≤ o.listenRet) (h5 : o.nonBlockingOk = true) (hthr : s.acceptThread = false) :
    s.start o port w =
      some (true,
        { serverSocket := o.socketRet, running := true, acceptThread := true,
          clients := s.clients },
        { openFds := o.socketRet :: w.openFds,
          trace := w.trace ++
            [Event.socket o.socketRet, Event.setsockopt o.socketRet,
             Event.bind o.socketRet (port % 65536), Event.listen o.socketRet 10,
             Event.setNonBlocking o.socketRet, Event.spawnAccept] }) := by
  unfold TelnetServer.start
  simp [Int.not_lt.2 h1, Int.not_lt.2 h2, Int.not_lt.2 h3, Int.not_lt.2 h4, h5, hthr,
    h1, World.emit, World.sysSocket]

theorem start_failure (o : SetupOutcome) (port : Int) (s : TelnetServer) (w : World)
    (hfail : o.socketRet < 0 ∨ o.setsockoptRet < 0 ∨ o.bindRet < 0 ∨ o.listenRet < 0 ∨
      o.nonBlockingOk = false) :
    ∃ calls : List Event,
      s.start o port w =
        some (false, { s with serverSocket := o.socketRet },
          { openFds := w.openFds, trace := w.trace ++ calls }) ∧
      Event.spawnAccept ∉ calls ∧
      closes calls = if 0 ≤ o.socketRet then [o.socketRet] else [] := by
  unfold TelnetServer.start
  by_cases h1 : o.socketRet < 0
  · refine ⟨[Event.socket o.socketRet], ?_, by simp, ?_⟩
    · simp [h1, Int.not_le.2 h1, World.sysSocket]
    · simp [Int.not_le.2 h1, closes]
  have h1p : 0 ≤ o.socketRet := Int.not_lt.1 h1
  by_cases h2 : o.setsockoptRet < 0
  · refine ⟨[Event.socket o.socketRet, Event.setsockopt o.socketRet,
      Event.close o.socketRet], ?_, by simp, ?_⟩
    · simp [h1, h2, h1p, World.sysSocket, World.emit, World.sysClose]
    · simp [h1p, closes]
  by_cases h3 : o.bindRet < 0
  · refine ⟨[Event.socket o.socketRet, Event.setsockopt o.socketRet,
      Event.bind o.socketRet (port % 65536), Event.close o.socketRet], ?_, by simp, ?_⟩
    · simp [h1, h2, h3, h1p, World.sysSocket, World.emit, World.sysClose]
    · simp [h1p, closes]
  by_cases h4 : o.listenRet < 0
  · refine ⟨[Event.socket o.socketRet, Event.setsockopt o.socketRet,
      Event.bind o.socketRet (port % 65536), Event.listen o.socketRet 10,
      Event.close o.socketRet], ?_, by simp, ?_⟩
    · simp [h1, h2, h3, h4, h1p, World.sysSocket, World.emit, World.sysClose]
    · simp [h1p, closes]
  have h5 : o.nonBlockingOk = false := by
    rcases hfail with h | h | h | h | h
    · exact absurd h h1
    · exact absurd h h2
    · exact absurd h h3
    · exact absurd h h4
    · exact h
  refine ⟨[Event.socket o.socketRet, Event.setsockopt o.socketRet,
    Event.bind o.socketRet (port % 65536), Event.listen o.socketRet 10,
    Event.setNonBlocking o.socketRet, Event.close o.socketRet], ?_, by simp, ?_⟩
  · simp [h1, h2, h3, h4, h5, h1p, World.sysSocket, World.emit, World.sysClose]
  · simp [h1p, closes]

theorem start_true_only_if (o : SetupOutcome) (port : Int) (s s1 : TelnetServer)
    (w w1 : World) (h : s.start o port w = some (true, s1, w1)) :
    0 ≤ o.socketRet ∧ 0 ≤ o.setsockoptRet ∧ 0 ≤ o.bindRet ∧ 0 ≤ o.listenRet ∧
      o.nonBlockingOk = true ∧ s.acceptThread = false := by
  by_cases hfail : o.socketRet < 0 ∨ o.setsockoptRet < 0 ∨ o.bindRet < 0 ∨
      o.listenRet < 0 ∨ o.nonBlockingOk = false
  · obtain ⟨calls, hs, -, -⟩ := start_failure o port s w hfail
    rw [hs] at h
    simp at h
  · simp only [not_or, Int.not_lt, Bool.not_eq_false] at hfail
    obtain ⟨h1, h2, h3, h4, h5⟩ := hfail
    refine ⟨h1, h2, h3, h4, h5, ?_⟩
    cases hthr : s.acceptThread with
    | false => rfl
    | true =>
      unfold TelnetServer.start at h
      simp [Int.not_lt.2 h1, Int.not_lt.2 h2, Int.not_lt.2 h3, Int.not_lt.2 h4, h5,
        hthr] at h

theorem acceptIter_idle (net : SendOracle) (a : AcceptOutcome) (s : TelnetServer)
    (w : World) (ha : a.clientSocket < 0) :
    (s.acceptIter net a w).1 = s ∧
    (s.acceptIter net a w).2.openFds = w.openFds ∧
    closes (s.acceptIter net a w).2.trace = closes w.trace := by
  unfold TelnetServer.acceptIter
  cases hb : a.wouldBlock <;>
    simp [ha, Int.not_le.2 ha, World.sysAccept, World.emit, closes_append, closes]

theorem acceptConnections_idle (net : SendOracle) (idle : List AcceptOutcome)
    (s : TelnetServer) (w : World) (hidle : ∀ a ∈ idle, a.clientSocket < 0) :
    (TelnetServer.acceptConnections net idle s w).1 = s ∧
    (TelnetServer.acceptConnections net idle s w).2.openFds = w.openFds ∧
    closes (TelnetServer.acceptConnections net idle s w).2.trace = closes w.trace := by
  induction idle generalizing w with
  | nil => simp [TelnetServer.acceptConnections]
  | cons a rest ih =>
    have ha := acceptIter_idle net a s w (hidle a (List.mem_cons_self _ _))
    have hrest : ∀ b ∈ rest, b.clientSocket < 0 :=
      fun b hb => hidle b (List.mem_cons_of_mem _ hb)
    unfold TelnetServer.acceptConnections
    cases hr : s.running with
    | false => simp
    | true =>
      simp only [if_true]
      rw [ha.1]
      have := ih (s.acceptIter net a w).2 hrest
      rw [ha.2.1, ha.2.2] at this
      exact this

/-- C7. Bind safety: after a successful `start(port)` on a freshly constructed
server, any number of accept-loop iterations that accept nothing, and then
`stop()`, the server is again as constructed (descriptor -1, not running,
empty registry, worker not joinable), the descriptors held open are those
held before `start`, the only descriptor closed is the listening one, and
`start(port)` with the same answers succeeds again, reaching the same state
as the first. -/
theorem start_stop_round_trip (net : SendOracle) (o : SetupOutcome) (port : Int)
    (w : World) (idle : List AcceptOutcome)
    (hidle : ∀ a ∈ idle, a.clientSocket < 0)
    (s1 s2 s3 : TelnetServer) (w1 w2 w3 : World)
    (hstart : TelnetServer.new.start o port w = some (true, s1, w1))
    (hloop : TelnetServer.acceptConnections net idle s1 w1 = (s2, w2))
    (hstop : s2.stop w2 = (s3, w3)) :
    s3 = TelnetServer.new ∧
    w3.openFds = w.openFds ∧
    closes w3.trace = closes w.trace ++ [o.socketRet] ∧
    ∃ w4, s3.start o port w3 = some (true, s1, w4) := by
  obtain ⟨h1, h2, h3, h4, h5, hthr⟩ := start_true_only_if o port _ s1 w w1 hstart
  rw [start_all_ok o port TelnetServer.new w h1 h2 h3 h4 h5 hthr] at hstart
  simp only [Option.some.injEq, Prod.mk.injEq, true_and] at hstart
  obtain ⟨hs1, hw1⟩ := hstart
  have hidl := acceptConnections_idle net idle s1 w1 hidle
  rw [hloop] at hidl
  simp only at hidl
  obtain ⟨hs2, hfds2, hcl2⟩ := hidl
  rw [stop_eq] at hstop
  simp only [Prod.mk.injEq] at hstop
  obtain ⟨hs3, hw3⟩ := hstop
  have hsock : s2.serverSocket = o.socketRet := by rw [hs2, ← hs1]
  have hs3new : s3 = TelnetServer.new := by
    rw [← hs3, hsock]
    simp [h1, TelnetServer.new]
  refine ⟨hs3new, ?_, ?_, ?_⟩
  · rw [← hw3, hsock, hfds2, ← hw1]
    simp [h1]
  · rw [← hw3, hsock]
    simp only [closes_append, hcl2, h1, if_true]
    rw [← hw1]
    cases s2.acceptThread <;> simp [closes_append, closes]
  · rw [hs3new, start_all_ok o port TelnetServer.new w3 h1 h2 h3 h4 h5 hthr, hs1]
    exact ⟨_, rfl⟩

/-- C7, on port 8023 with listening descriptor 3 and two idle iterations of
the accept loop in between. -/
theorem start_stop_round_trip_witness :
    (TelnetServer.mk (-1) false false [] = TelnetServer.new ∧
      (World.mk [0, 1, 2]
        [Event.socket 3, Event.setsockopt 3, Event.bind 3 8023, Event.listen 3 10,
         Event.setNonBlocking 3, Event.spawnAccept, Event.accept 3 (-1), Event.sleep 100,
         Event.accept 3 (-1), Event.joinAccept, Event.close 3]).openFds =
        (World.mk [0, 1, 2] []).openFds ∧
      closes (World.mk [0, 1, 2]
        [Event.socket 3, Event.setsockopt 3, Event.bind 3 8023, Event.listen 3 10,
         Event.setNonBlocking 3, Event.spawnAccept, Event.accept 3 (-1), Event.sleep 100,
         Event.accept 3 (-1), Event.joinAccept, Event.close 3]).trace =
        closes (World.mk [0, 1, 2] []).trace ++ [(SetupOutcome.mk 3 0 0 0 true).socketRet] ∧
      ∃ w4, (TelnetServer.mk (-1) false false []).start ⟨3, 0, 0, 0, true⟩ 8023
        (World.mk [0, 1, 2]
          [Event.socket 3, Event.setsockopt 3, Event.bind 3 8023, Event.listen 3 10,
           Event.setNonBlocking 3, Event.spawnAccept, Event.accept 3 (-1), Event.sleep 100,
           Event.accept 3 (-1), Event.joinAccept, Event.close 3]) =
        some (true, ⟨3, true, true, []⟩, w4)) :=
  start_stop_round_trip (fun _ _ _ => true) ⟨3, 0, 0, 0, true⟩ 8023 ⟨[0, 1, 2], []⟩
    [⟨-1, true, false⟩, ⟨-1, false, false⟩] (by decide)
    ⟨3, true, true, []⟩ ⟨3, true, true, []⟩ ⟨-1, false, false, []⟩
    ⟨[3, 0, 1, 2],
      [Event.socket 3, Event.setsockopt 3, Event.bind 3 8023, Event.listen 3 10,
       Event.setNonBlocking 3, Event.spawnAccept]⟩
    ⟨[3, 0, 1, 2],
      [Event.socket 3, Event.setsockopt 3, Event.bind 3 8023, Event.listen 3 10,
       Event.setNonBlocking 3, Event.spawnAccept, Event.accept 3 (-1), Event.sleep 100,
       Event.accept 3 (-1)]⟩
    ⟨[0, 1, 2],
      [Event.socket 3, Event.setsockopt 3, Event.bind 3 8023, Event.listen 3 10,
       Event.setNonBlocking 3, Event.spawnAccept, Event.accept 3 (-1), Event.sleep 100,
       Event.accept 3 (-1), Event.joinAccept, Event.close 3]⟩
    (by decide) (by decide) (by decide)

/-- C8. Setup errors are fatal to `start`: when socket creation,
option-setting, bind or listen fails, `start(port)` returns failure, the
running flag, the worker and the registry are untouched, no accept-loop worker
is started, the descriptors held open are those held before and a socket that
was created has been closed; `start` returns success only when every setup
call, switching to non-blocking mode included, succeeds. -/
theorem start_setup_errors_fatal (o : SetupOutcome) (port : Int) (s : TelnetServer)
    (w : World) :
    ((o.socketRet < 0 ∨ o.setsockoptRet < 0 ∨ o.bindRet < 0 ∨ o.listenRet < 0) →
      ∃ s1 w1 calls, s.start o port w = some (false, s1, w1) ∧
        s1.running = s.running ∧ s1.acceptThread = s.acceptThread ∧
        s1.clients = s.clients ∧
        w1.trace = w.trace ++ calls ∧ Event.spawnAccept ∉ calls ∧
        closes calls = (if 0 ≤ o.socketRet then [o.socketRet] else []) ∧
        w1.openFds = w.openFds) ∧
    (∀ s1 w1, s.start o port w = some (true, s1, w1) →
      0 ≤ o.socketRet ∧ 0 ≤ o.setsockoptRet ∧ 0 ≤ o.bindRet ∧ 0 ≤ o.listenRet ∧
        o.nonBlockingOk = true) := by
  constructor
  · intro hfail
    have hfail2 : o.socketRet < 0 ∨ o.setsockoptRet < 0 ∨ o.bindRet < 0 ∨
        o.listenRet < 0 ∨ o.nonBlockingOk = false := by
      rcases hfail with h | h | h | h
      · exact Or.inl h
      · exact Or.inr (Or.inl h)
      · exact Or.inr (Or.inr (Or.inl h))
      · exact Or.inr (Or.inr (Or.inr (Or.inl h)))
    obtain ⟨calls, hs, hspawn, hcl⟩ := start_failure o port s w hfail2
    exact ⟨_, _, calls, hs, rfl, rfl, rfl, rfl, hspawn, hcl, rfl⟩
  · intro s1 w1 h
    obtain ⟨h1, h2, h3, h4, h5, -⟩ := start_true_only_if o port s s1 w w1 h
    exact ⟨h1, h2, h3, h4, h5⟩

/-- C8, at a fresh server when `bind` fails on the created socket 3. -/
theorem start_setup_errors_fatal_witness :
    ((3 : Int) < 0 ∨ (0 : Int) < 0 ∨ (-1 : Int) < 0 ∨ (0 : Int) < 0) ∧
    TelnetServer.new.start ⟨3, 0, -1, 0, true⟩ 8023 ⟨[0, 1, 2], []⟩ =
      some (false, ⟨3, false, false, []⟩,
        ⟨[0, 1, 2], [Event.socket 3, Event.setsockopt 3, Event.bind 3 8023,
          Event.close 3]⟩) ∧
    ∃ s1 w1 calls,
      TelnetServer.new.start ⟨3, 0, -1, 0, true⟩ 8023 ⟨[0, 1, 2], []⟩ =
        some (false, s1, w1) ∧
      s1.running = TelnetServer.new.running ∧
      s1.acceptThread = TelnetServer.new.acceptThread ∧
      s1.clients = TelnetServer.new.clients ∧
      w1.trace = (World.mk [0, 1, 2] []).trace ++ calls ∧ Event.spawnAccept ∉ calls ∧
      closes calls =
        (if 0 ≤ (SetupOutcome.mk 3 0 (-1) 0 true).socketRet then
          [(SetupOutcome.mk 3 0 (-1) 0 true).socketRet] else []) ∧
      w1.openFds = (World.mk [0, 1, 2] []).openFds :=
  ⟨by decide, by decide,
   (start_setup_errors_fatal ⟨3, 0, -1, 0, true⟩ 8023 TelnetServer.new
      ⟨[0, 1, 2], []⟩).1 (by decide)⟩

/-- C9, evaluated: a server starts on descriptor 3, accepts the clients 5 and
6 and stops. After `stop()` the registry is empty, yet the only descriptor
closed is 3: the client sockets 5 and 6 are still held open. -/
theorem stop_leaves_client_sockets_open :
    ∃ s1 w1 s2 w2,
      TelnetServer.new.start ⟨3, 0, 0, 0, true⟩ 8023 ⟨[0, 1, 2], []⟩ =
        some (true, s1, w1) ∧
      TelnetServer.acceptConnections (fun _ _ _ => true)
        [⟨5, false, true⟩, ⟨6, false, true⟩] s1 w1 = (s2, w2) ∧
      s2.clients = [⟨5, true⟩, ⟨6, true⟩] ∧
      (s2.stop w2).1 = TelnetServer.new ∧
      closes (s2.stop w2).2.trace = [3] ∧
      (s2.stop w2).2.openFds = [6, 5, 0, 1, 2] :=
  ⟨⟨3, true, true, []⟩, _, _, _, rfl, rfl, by decide, by decide, by decide, by decide⟩

/-! ## The read loop -/

theorem handleClientIter_fst (h : TelnetClientHandler) (rawData : CString) (w : World) :
    (h.handleClientIter rawData w).1 = h := by
  unfold TelnetClientHandler.handleClientIter
  simp only []
  split <;> rfl

theorem handleClient_fst (h : TelnetClientHandler) (chunks : List CString) (w : World) :
    (h.handleClient chunks w).1 = h := by
  induction chunks generalizing w with
  | nil => rfl
  | cons c cs ih =>
    unfold TelnetClientHandler.handleClient
    cases hr : h.running with
    | false => simp
    | true =>
      simp only [if_true]
      rw [handleClientIter_fst]
      exact ih _

/-- C10. Empty reads never terminate a connection: an iteration of the read
loop whose decoded result is empty receives, sleeps 100 ms and does nothing
else (no command forwarded, no write, no descriptor closed), leaves the
handle unchanged with its running flag true, and the loop goes on with the
next chunk; no iteration and no run of the loop, whatever the bytes received,
changes the running flag. -/
theorem handleClientIter_empty_read (h : TelnetClientHandler) (rawData : CString)
    (w : World) (hrun : h.running = true) (hempty : decodeLine rawData = []) :
    (h.handleClientIter rawData w).1.running = true ∧
    (h.handleClientIter rawData w).2.trace =
      w.trace ++ [Event.receive h.clientSocket 10000, Event.sleep 100] ∧
    commands (h.handleClientIter rawData w).2.trace = commands w.trace ∧
    writes (h.handleClientIter rawData w).2.trace = writes w.trace ∧
    (h.handleClientIter rawData w).2.openFds = w.openFds ∧
    (∀ rest, h.handleClient (rawData :: rest) w =
      h.handleClient rest (h.handleClientIter rawData w).2) ∧
    (∀ raw2 w2, (h.handleClientIter raw2 w2).1.running = h.running) ∧
    (∀ chunks w2, (h.handleClient chunks w2).1.running = h.running) := by
  have htrace : (h.handleClientIter rawData w).2 =
      { openFds := w.openFds,
        trace := w.trace ++ [Event.receive h.clientSocket 10000, Event.sleep 100] } := by
    unfold TelnetClientHandler.handleClientIter
    simp [hempty, World.emit]
  refine ⟨?_, ?_, ?_, ?_, ?_, ?_, ?_, ?_⟩
  · rw [handleClientIter_fst, hrun]
  · rw [htrace]
  · rw [htrace]
    simp [commands_append, commands]
  · rw [htrace]
    simp [writes_append, writes]
  · rw [htrace]
  · intro rest
    conv_lhs => unfold TelnetClientHandler.handleClient
    simp only [hrun, if_true]
    rw [handleClientIter_fst]
  · intro raw2 w2
    rw [handleClientIter_fst]
  · intro chunks w2
    rw [handleClient_fst]

/-- C10, at the empty chunk of a timeout, followed by a chunk of control bytes
only and by a chunk that starts with CR LF. -/
theorem handleClientIter_empty_read_witness :
    decodeLine [] = [] ∧ decodeLine [255, 1, 127] = [] ∧
    decodeLine (cstr "\r\nPLAY") = [] ∧
    (TelnetClientHandler.handleClient ⟨4, true⟩ [[], [255, 1, 127], cstr "\r\nPLAY"]
      ⟨[4], []⟩) =
      (⟨4, true⟩, ⟨[4], [Event.receive 4 10000, Event.sleep 100, Event.receive 4 10000,
        Event.sleep 100, Event.receive 4 10000, Event.sleep 100]⟩) ∧
    (TelnetClientHandler.handleClientIter ⟨4, true⟩ [] ⟨[4], []⟩).2.trace =
      [] ++ [Event.receive 4 10000, Event.sleep 100] :=
  ⟨by decide, by decide, by decide, by decide,
   (handleClientIter_empty_read ⟨4, true⟩ [] ⟨[4], []⟩ rfl (by decide)).2.1⟩

/-! ## The stored descriptor stays in range -/

theorem start_descriptor_range (o : SetupOutcome) (port : Int) (s s1 : TelnetServer)
    (w w1 : World) (ok : Bool) (hret : -1 ≤ o.socketRet)
    (h : s.start o port w = some (ok, s1, w1)) : -1 ≤ s1.serverSocket := by
  by_cases hfail : o.socketRet < 0 ∨ o.setsockoptRet < 0 ∨ o.bindRet < 0 ∨
      o.listenRet < 0 ∨ o.nonBlockingOk = false
  · obtain ⟨calls, hs, -, -⟩ := start_failure o port s w hfail
    rw [hs] at h
    simp only [Option.some.injEq, Prod.mk.injEq] at h
    rw [← h.2.1]
    exact hret
  · simp only [not_or, Int.not_lt, Bool.not_eq_false] at hfail
    obtain ⟨h1, h2, h3, h4, h5⟩ := hfail
    cases hthr : s.acceptThread with
    | false =>
      rw [start_all_ok o port s w h1 h2 h3 h4 h5 hthr] at h
      simp only [Option.some.injEq, Prod.mk.injEq] at h
      rw [← h.2.1]
      exact hret
    | true =>
      unfold TelnetServer.start at h
      simp [Int.not_lt.2 h1, Int.not_lt.2 h2, Int.not_lt.2 h3, Int.not_lt.2 h4, h5,
        hthr] at h

theorem stop_descriptor_range (s : TelnetServer) (w : World) :
    (s.stop w).1.serverSocket < 0 := by
  rw [stop_eq]
  by_cases h : 0 ≤ s.serverSocket
  · simp [h]
  · simp only [h, if_false]
    exact Int.not_le.1 h

theorem acceptIter_serverSocket (net : SendOracle) (a : AcceptOutcome)
    (s : TelnetServer) (w : World) :
    (s.acceptIter net a w).1.serverSocket = s.serverSocket := by
  unfold TelnetServer.acceptIter
  simp only []
  split
  · split <;> rfl
  · split <;> rfl

/-! ## The codec applied to its own output -/

theorem decodeLine_no_crlf (rawData : CString) : ¬ CRLF <:+: decodeLine rawData := by
  by_cases h : CRLF <:+: stripControl rawData
  · obtain ⟨pre, post, hs, hpre⟩ := crlf_split_first _ h
    rw [decodeLine_of_split rawData pre post hs hpre]
    exact hpre
  · rw [decodeLine_of_no_crlf rawData h]
    exact h

theorem decodeLine_all_retained (rawData : CString) :
    ∀ c ∈ decodeLine rawData, isRetained c = true := by
  intro c hc
  have hmem : c ∈ filteredForm rawData := (decodeLine_prefix_of_filtered rawData).subset hc
  exact (List.mem_filter.1 hmem).2

theorem stripControl_of_retained (s : CString) (h : ∀ c ∈ s, isRetained c = true) :
    stripControl s = s := by
  rw [stripControl_eq_filteredForm]
  exact List.filter_eq_self.2 h

/-- C11. The line codec is idempotent: decoding the decoded output of any
chunk returns that output unchanged. The decoded output holds only retained
bytes (32 to 126, CR, LF) and never the sequence CR LF, while a lone CR or a
lone LF can still occur in it. -/
theorem decodeLine_idempotent (x : CString) :
    decodeLine (decodeLine x) = decodeLine x ∧
    (∀ c ∈ decodeLine x, (32 ≤ c ∧ c ≤ 126) ∨ c = 13 ∨ c = 10) ∧
    ¬ CRLF <:+: decodeLine x ∧
    decodeLine (cstr "a\rb\nc") = cstr "a\rb\nc" ∧
    decodeLine (decodeLine (cstr "a\rb\nc")) = cstr "a\rb\nc" := by
  have hret := decodeLine_all_retained x
  have hno := decodeLine_no_crlf x
  have hstrip := stripControl_of_retained (decodeLine x) hret
  refine ⟨?_, ?_, hno, by decide, by decide⟩
  · have h : ¬ CRLF <:+: stripControl (decodeLine x) := by rw [hstrip]; exact hno
    rw [decodeLine_of_no_crlf (decodeLine x) h, hstrip]
  · intro c hc
    exact of_decide_eq_true (hret c hc)

/-! ## Ownership of the listening descriptor -/

/-- C12, evaluated: on a fresh server `start(8023)` creates socket 3 and
`bind` fails, so `start` closes 3 and returns failure with 3 still stored;
the stored descriptor is non-negative yet not open, and `stop()` then calls
`close(3)` a second time. The same happens when `listen` or the switch to
non-blocking mode fails. -/
theorem stop_closes_descriptor_closed_by_failed_start :
    (∃ s1 w1,
      TelnetServer.new.start ⟨3, 0, -1, 0, true⟩ 8023 ⟨[0, 1, 2], []⟩ =
        some (false, s1, w1) ∧
      s1.serverSocket = 3 ∧ 0 ≤ s1.serverSocket ∧ s1.serverSocket ∉ w1.openFds ∧
      closes w1.trace = [3] ∧
      (s1.stop w1).2.trace =
        [Event.socket 3, Event.setsockopt 3, Event.bind 3 8023, Event.close 3,
         Event.close 3] ∧
      closes (s1.stop w1).2.trace = [3, 3]) ∧
    (∃ s1 w1,
      TelnetServer.new.start ⟨3, 0, 0, -1, true⟩ 8023 ⟨[0, 1, 2], []⟩ =
        some (false, s1, w1) ∧
      s1.serverSocket ∉ w1.openFds ∧ closes (s1.stop w1).2.trace = [3, 3]) ∧
    (∃ s1 w1,
      TelnetServer.new.start ⟨3, 0, 0, 0, false⟩ 8023 ⟨[0, 1, 2], []⟩ =
        some (false, s1, w1) ∧
      s1.serverSocket ∉ w1.openFds ∧ closes (s1.stop w1).2.trace = [3, 3]) :=
  ⟨⟨⟨3, false, false, []⟩, _, rfl, by decide, by decide, by decide, by decide,
      by decide, by decide⟩,
   ⟨⟨3, false, false, []⟩, _, rfl, by decide, by decide⟩,
   ⟨⟨3, false, false, []⟩, _, rfl, by decide, by decide⟩⟩
